import Mathlib

/-!
Shallow embedding of `src/rpc/auxpow_miner.cpp` (the AuxpowMiner mining
coordinator): template cache, template selector, task encoders and
submission handlers, together with proofs of the specified properties.

Machine integers are modelled as `Nat` (bytes are `Nat` values < 256,
32-bit words are reduced mod 2^32 where it matters); timestamps are `Int`;
C++ exceptions are modelled with `Except`; the mutable `AuxpowMiner` object
is threaded explicitly as a state value.  External collaborators (chain
state, mempool, block assembler, validation pipeline) are packaged into an
environment record observed during a single call.
-/

deriving instance DecidableEq for Except

/-- Values stored in a UniValue object by the encoders: strings and
integers are the only kinds the miner pushes. -/
inductive UV where
  | s (v : String)
  | i (v : Int)
  deriving DecidableEq, Repr

/-- A UniValue object in `VOBJ` mode: ordered key/value pairs as built by
successive `pushKV` calls. -/
abbrev UniObject := List (String × UV)

/-- Error conditions raised by the miner code: the JSONRPCError kinds with
their message where it distinguishes them, the `std::runtime_error` thrown
for invalid difficulty bits, and a failed `assert`. -/
inductive Err where
  | p2pDisabled
  | notConnected
  | initialDownload
  | outOfMemory
  | invalidParameter (msg : String)
  | invalidDifficulty
  | assertFailure
  deriving DecidableEq, Repr

/-- A chain-tip block index (`CBlockIndex` as used by the miner): identity
of the block plus its height.  Pointer comparison in the source becomes
value equality here. -/
structure Tip where
  blockHash : Nat
  nHeight : Nat
  deriving DecidableEq, Repr

/-- The pure block header (`CPureBlockHeader`): the six serialized header
fields. -/
structure CPureBlockHeader where
  nVersion : Nat
  hashPrevBlock : Nat
  hashMerkleRoot : Nat
  nTime : Nat
  nBits : Nat
  nNonce : Nat
  deriving DecidableEq, Repr

/-- A candidate block (`CBlock`): the pure header fields, the coinbase
output value read by the encoders (`vtx[0]->vout[0].nValue`), the rest of
the transaction data abstracted as opaque bytes, and the auxpow slot that
`SetAuxpow` would fill. -/
structure CBlock where
  nVersion : Nat
  hashPrevBlock : Nat
  hashMerkleRoot : Nat
  nTime : Nat
  nBits : Nat
  nNonce : Nat
  coinbaseValue : Int
  txData : List Nat
  auxpow : Option Nat
  deriving DecidableEq, Repr

/-- Projection of a block onto its pure header part
(`static_cast<const CPureBlockHeader*>`). -/
def CBlock.header (b : CBlock) : CPureBlockHeader :=
  { nVersion := b.nVersion, hashPrevBlock := b.hashPrevBlock,
    hashMerkleRoot := b.hashMerkleRoot, nTime := b.nTime,
    nBits := b.nBits, nNonce := b.nNonce }

/-- Modelled from the spec: the hashing primitive behind
`CPureBlockHeader::GetHash` is an external collaborator; we model it as an
opaque deterministic function of the header fields (an injective pairing
standing in for the cryptographic hash). -/
def CPureBlockHeader.GetHash (h : CPureBlockHeader) : Nat :=
  Nat.pair h.nVersion (Nat.pair h.hashPrevBlock (Nat.pair h.hashMerkleRoot
    (Nat.pair h.nTime (Nat.pair h.nBits h.nNonce))))

/-- `CBlock::GetHash` hashes the header part. -/
def CBlock.GetHash (b : CBlock) : Nat :=
  b.header.GetHash

/-- Result of decoding compact difficulty bits: the full-width target
(reduced mod 2^256) plus the negative and overflow flags. -/
structure CompactResult where
  target : Nat
  negative : Bool
  overflow : Bool
  deriving DecidableEq, Repr

/-- Modelled from the spec: the external difficulty codec
`decodeCompact(bits) -> (target, negative?, overflow?)`
(`arith_uint256::SetCompact`, not part of the source under verification):
exponent/mantissa decoding with the sign bit and overflow detection. -/
def decodeCompact (nCompact : Nat) : CompactResult :=
  let size := nCompact / 2 ^ 24
  let word := nCompact % 2 ^ 23
  let target :=
    if size ≤ 3 then word / 2 ^ (8 * (3 - size))
    else (word * 2 ^ (8 * (size - 3))) % 2 ^ 256
  { target := target,
    negative := word != 0 && (nCompact / 2 ^ 23) % 2 == 1,
    overflow := word != 0 &&
      (decide (size > 34) || (decide (word > 0xff) && decide (size > 33)) ||
        (decide (word > 0xffff) && decide (size > 32))) }

/-- Network status observed by the guard `auxMiningCheck`: whether
`g_connman` exists, the connected node count, `MineBlocksOnDemand` and
`IsInitialBlockDownload`. -/
structure NetEnv where
  hasConnman : Bool
  nodeCount : Nat
  mineBlocksOnDemand : Bool
  inInitialBlockDownload : Bool
  deriving DecidableEq, Repr

/-- The guard `auxMiningCheck`: reject when peer-to-peer is missing, when
no peers are connected (unless mining on demand), or during initial block
download (unless mining on demand). -/
def auxMiningCheck (net : NetEnv) : Except Err Unit :=
  if !net.hasConnman then
    Except.error Err.p2pDisabled
  else if net.nodeCount == 0 && !net.mineBlocksOnDemand then
    Except.error Err.notConnected
  else if net.inInitialBlockDownload && !net.mineBlocksOnDemand then
    Except.error Err.initialDownload
  else
    Except.ok ()

/-- External chain state and collaborators observed during one call: the
active chain tip, the mempool update counter, the current time, the block
the assembler `CreateNewBlock` would return for the given script (`none`
models its out-of-memory failure), the configured auxpow chain id, and the
validation pipeline `ProcessNewBlock`. -/
structure ChainEnv where
  tip : Tip
  mempoolCounter : Nat
  now : Int
  newBlock : Option CBlock
  auxpowChainId : Int
  processNewBlock : CBlock → Bool

/-- Modelled from the spec: the external coinbase finalizer
`IncrementExtraNonce` (not part of the source under verification)
increments the extra-nonce counter, folds it into the coinbase, and
rebuilds the merkle root; the rebuilt root is modelled as an opaque
deterministic function of the block and the fresh counter value. -/
def IncrementExtraNonce (b : CBlock) (extraNonce : Nat) : CBlock × Nat :=
  let extraNonce' := extraNonce + 1
  ({ b with hashMerkleRoot :=
      Nat.pair (Nat.pair b.hashPrevBlock b.nTime) extraNonce' }, extraNonce')

/-- The AuxpowMiner object state: the staleness snapshots, the extra-nonce
counter, both lookup indices, and the current-template pointer.  The
`templates` ownership vector of the source holds the same blocks as the
indices and has no observable behaviour of its own, so it is not
duplicated here. -/
structure AuxpowMiner where
  txUpdatedLast : Nat
  pindexPrev : Option Tip
  startTime : Int
  extraNonce : Nat
  blocks : List (Nat × CBlock)
  blocksByMerkleRoot : List (Nat × CBlock)
  pblockCur : Option CBlock
  deriving DecidableEq, Repr

/-- Modelled from the spec: the class declaration is outside the given
source; per the spec the cache starts empty with null pointers and zeroed
counters. -/
def AuxpowMiner.init : AuxpowMiner :=
  { txUpdatedLast := 0, pindexPrev := none, startTime := 0, extraNonce := 0,
    blocks := [], blocksByMerkleRoot := [], pblockCur := none }

/-- `std::map::operator[]` assignment: insert the key or overwrite the
existing entry. -/
def mapInsert (k : Nat) (v : CBlock) (m : List (Nat × CBlock)) :
    List (Nat × CBlock) :=
  (k, v) :: m.filter (fun e => e.1 != k)

/-- `std::map::find`: the stored block for a key, if present. -/
def mapFind (k : Nat) (m : List (Nat × CBlock)) : Option CBlock :=
  m.lookup k

/-- The rebuild condition of `AuxpowMiner::getCurrentBlock`: the tip
changed, or the mempool counter moved and more than 60 seconds passed
since the last build. -/
def needsRebuild (env : ChainEnv) (s : AuxpowMiner) : Bool :=
  decide (s.pindexPrev ≠ some env.tip) ||
    (decide (env.mempoolCounter ≠ s.txUpdatedLast) &&
      decide (env.now - s.startTime > 60))

/-- The first phase of `AuxpowMiner::getCurrentBlock` (the part under the
`cs_main` lock): decide staleness, possibly clear the cache (on tip
change) and rebuild via the assembler.  Returns the current block or the
raised error, paired with the post-phase object state (a thrown C++
exception leaves the object in whatever state the mutations so far
produced). -/
def selectStep (env : ChainEnv) (s : AuxpowMiner) :
    Except Err CBlock × AuxpowMiner :=
  if needsRebuild env s then
    let s1 :=
      if s.pindexPrev ≠ some env.tip then
        { s with blocks := [], blocksByMerkleRoot := [], pblockCur := none }
      else s
    match env.newBlock with
    | none => (Except.error Err.outOfMemory, s1)
    | some nb =>
      let s2 := { s1 with txUpdatedLast := env.mempoolCounter,
                          pindexPrev := some env.tip,
                          startTime := env.now }
      let fin := (IncrementExtraNonce nb s2.extraNonce).1
      let s3 := { s2 with
        extraNonce := (IncrementExtraNonce nb s2.extraNonce).2,
        pblockCur := some fin,
        blocks := mapInsert fin.GetHash fin s2.blocks,
        blocksByMerkleRoot :=
          mapInsert fin.hashMerkleRoot fin s2.blocksByMerkleRoot }
      (Except.ok fin, s3)
  else
    match s.pblockCur with
    | none => (Except.error Err.assertFailure, s)
    | some b => (Except.ok b, s)

/-- `AuxpowMiner::getCurrentBlock`: the selection phase above followed by
decoding the compact difficulty bits of the selected block into the
full-width target (decode failure raises the invalid-difficulty
runtime error).  Returns the result (current block and target) or the
raised error, paired with the post-call object state. -/
def getCurrentBlock (env : ChainEnv) (s : AuxpowMiner) :
    Except Err (CBlock × Nat) × AuxpowMiner :=
  match selectStep env s with
  | (Except.error e, s') => (Except.error e, s')
  | (Except.ok b, s') =>
    let dc := decodeCompact b.nBits
    ((if dc.negative || dc.overflow || dc.target == 0 then
        Except.error Err.invalidDifficulty
      else
        Except.ok (b, dc.target)), s')

/-- `AuxpowMiner::lookupSavedBlock`: find a cached block by hash, raising
`RPC_INVALID_PARAMETER` "block hash unknown" on a miss. -/
def lookupSavedBlock (s : AuxpowMiner) (hash : Nat) : Except Err CBlock :=
  match mapFind hash s.blocks with
  | none => Except.error (Err.invalidParameter "block hash unknown")
  | some b => Except.ok b

/-- `AuxpowMiner::lookupBlockByMerkleRoot`: find a cached block by merkle
root, raising `RPC_INVALID_PARAMETER` "Merkle root unknown" on a miss. -/
def lookupBlockByMerkleRoot (s : AuxpowMiner) (merkleRoot : Nat) :
    Except Err CBlock :=
  match mapFind merkleRoot s.blocksByMerkleRoot with
  | none => Except.error (Err.invalidParameter "Merkle root unknown")
  | some b => Except.ok b

/-- Little-endian serialization of `k` bytes of `n` (the canonical integer
encoding used by the node's serializer). -/
def serLE : Nat → Nat → List Nat
  | 0, _ => []
  | k + 1, n => n % 256 :: serLE k (n / 256)

/-- Little-endian deserialization of a byte list back to an integer. -/
def deserLE (l : List Nat) : Nat :=
  l.foldr (fun b acc => b + 256 * acc) 0

/-- Serialization of a 32-bit word (4 bytes, little endian). -/
def serU32 (n : Nat) : List Nat :=
  serLE 4 n

/-- Serialization of a `uint256` (32 bytes, little endian: the memory
order of `base_blob`). -/
def serU256 (n : Nat) : List Nat :=
  serLE 32 n

/-- The canonical header encoding written by
`writer << *static_cast<const CPureBlockHeader*>(pblock)`: the six fields
in declaration order, 80 bytes in total. -/
def serializeHeader (h : CPureBlockHeader) : List Nat :=
  serU32 h.nVersion ++ serU256 h.hashPrevBlock ++ serU256 h.hashMerkleRoot ++
    serU32 h.nTime ++ serU32 h.nBits ++ serU32 h.nNonce

/-- The header decoding performed by `ss >> header` on an 80-byte buffer:
read the six fields back in order. -/
def deserializeHeader (l : List Nat) : CPureBlockHeader :=
  { nVersion := deserLE (l.take 4),
    hashPrevBlock := deserLE ((l.drop 4).take 32),
    hashMerkleRoot := deserLE ((l.drop 36).take 32),
    nTime := deserLE ((l.drop 68).take 4),
    nBits := deserLE ((l.drop 72).take 4),
    nNonce := deserLE ((l.drop 76).take 4) }

/-- Range constraints under which a header is representable in the
serialized form (32-bit words and 256-bit hashes). -/
def validHeader (h : CPureBlockHeader) : Prop :=
  h.nVersion < 2 ^ 32 ∧ h.hashPrevBlock < 2 ^ 256 ∧
    h.hashMerkleRoot < 2 ^ 256 ∧ h.nTime < 2 ^ 32 ∧
    h.nBits < 2 ^ 32 ∧ h.nNonce < 2 ^ 32

instance (h : CPureBlockHeader) : Decidable (validHeader h) := by
  unfold validHeader
  infer_instance

/-- `std::vector::resize (n, fill)`: truncate or pad with the fill byte. -/
def resizeTo (n : Nat) (fill : Nat) (l : List Nat) : List Nat :=
  l.take n ++ List.replicate (n - l.length) fill

/-- `FormatHashBlocks (pbuffer, len)` as a function on the buffer
contents: zero the buffer from `len` to `64 * blocks`, write `0x80` at
offset `len`, and write the big-endian 32-bit value `len * 8` into the
last four bytes before `64 * blocks`; bytes beyond that point are left
untouched.  (Faithful to the pointer-writing source whenever
`len + 5 ≤ 64 * blocks ≤ buffer size`, which holds at its only call
site.) -/
def FormatHashBlocks (data : List Nat) (len : Nat) : List Nat :=
  let blocks := 1 + (len + 8) / 64
  let total := 64 * blocks
  let bits := len * 8
  data.take len ++ [0x80] ++ List.replicate (total - len - 5) 0 ++
    [bits / 2 ^ 24 % 256, bits / 2 ^ 16 % 256, bits / 2 ^ 8 % 256, bits % 256] ++
    data.drop total

/-- `SwapGetWorkEndianness`: in every aligned 4-byte group swap byte 0
with byte 3 and byte 1 with byte 2 (callers always pass sizes that are
multiples of 4, which the source asserts). -/
def SwapGetWorkEndianness : List Nat → List Nat
  | a :: b :: c :: d :: rest => d :: c :: b :: a :: SwapGetWorkEndianness rest
  | rest => rest

/-- Lowercase hexadecimal digit for a value below 16. -/
def hexDigitChar (n : Nat) : Char :=
  if n < 10 then Char.ofNat (48 + n) else Char.ofNat (87 + n)

/-- `strprintf ("%08x", n)` for a 32-bit value: exactly eight lowercase
hex digits, most significant first. -/
def toHex8 (n : Nat) : String :=
  String.mk ((List.range 8).map (fun i => hexDigitChar (n / 16 ^ (7 - i) % 16)))

/-- `HexStr (begin, end)`: two lowercase hex digits per byte, bytes in
buffer order. -/
def HexStr (bytes : List Nat) : String :=
  String.mk (bytes.flatMap (fun b => [hexDigitChar (b / 16 % 16), hexDigitChar (b % 16)]))

/-- Modelled from the spec: `uint256::GetHex` of an opaque modelled hash
value; only determinism matters, so plain hexadecimal digits are used. -/
def natHex (n : Nat) : String :=
  String.mk (Nat.toDigits 16 n)

/-- `AuxpowMiner::createAuxBlock`: guard, then current template selection,
then the direct field projection into the merge-mining descriptor.
Returns the built UniValue object (or the raised error) plus the
post-call miner state. -/
def createAuxBlock (net : NetEnv) (env : ChainEnv) (s : AuxpowMiner) :
    Except Err UniObject × AuxpowMiner :=
  match auxMiningCheck net with
  | Except.error e => (Except.error e, s)
  | Except.ok _ =>
    match getCurrentBlock env s with
    | (Except.error e, s') => (Except.error e, s')
    | (Except.ok (pblock, target), s') =>
      match s'.pindexPrev with
      | none => (Except.error Err.assertFailure, s')
      | some prev =>
        (Except.ok
          [("hash", UV.s (natHex pblock.GetHash)),
           ("algo", UV.s "sha256d"),
           ("chainid", UV.i env.auxpowChainId),
           ("previousblockhash", UV.s (natHex pblock.hashPrevBlock)),
           ("coinbasevalue", UV.i pblock.coinbaseValue),
           ("bits", UV.s (toHex8 pblock.nBits)),
           ("height", UV.i (prev.nHeight + 1)),
           ("_target", UV.s (HexStr (serU256 target)))], s')

/-- The `data` blob of `createWork` before the endianness swap: serialize
the header, resize the vector to 128 zero-padded bytes, then apply
`FormatHashBlocks` with the header length. -/
def createWorkPreSwap (b : CBlock) : List Nat :=
  FormatHashBlocks (resizeTo 128 0 (serializeHeader b.header))
    (serializeHeader b.header).length

/-- The final `data` blob of `createWork`: the padded buffer after the
4-byte-group endianness swap. -/
def createWorkData (b : CBlock) : List Nat :=
  SwapGetWorkEndianness (createWorkPreSwap b)

/-- `AuxpowMiner::createWork`: guard, template selection, then the legacy
padded/byte-swapped binary blob and the remaining descriptor fields. -/
def createWork (net : NetEnv) (env : ChainEnv) (s : AuxpowMiner) :
    Except Err UniObject × AuxpowMiner :=
  match auxMiningCheck net with
  | Except.error e => (Except.error e, s)
  | Except.ok _ =>
    match getCurrentBlock env s with
    | (Except.error e, s') => (Except.error e, s')
    | (Except.ok (pblock, target), s') =>
      match s'.pindexPrev with
      | none => (Except.error Err.assertFailure, s')
      | some prev =>
        (Except.ok
          [("data", UV.s (HexStr (createWorkData pblock))),
           ("algo", UV.s "neoscrypt"),
           ("previousblockhash", UV.s (natHex pblock.hashPrevBlock)),
           ("coinbasevalue", UV.i pblock.coinbaseValue),
           ("bits", UV.s (toHex8 pblock.nBits)),
           ("height", UV.i (prev.nHeight + 1)),
           ("target", UV.s (HexStr (serU256 target)))], s')

/-- `AuxpowMiner::submitAuxBlock`: guard, look the template up by the
requested hash, copy it, parse the auxpow (its wire format is an external
concern, so the parsed proof `pow` is taken directly), leave the
`SetAuxpow` attachment disabled exactly as the source does (the call is
commented out pending a block-format change), assert the copy's hash
still equals the requested hash, and hand the copy to `ProcessNewBlock`.
Returns the submitted block together with the pipeline's verdict; the
state is returned unchanged (the method is const and only reads the
cache). -/
def submitAuxBlock (net : NetEnv) (env : ChainEnv) (s : AuxpowMiner)
    (hash : Nat) (_pow : Nat) : Except Err (CBlock × Bool) × AuxpowMiner :=
  match auxMiningCheck net with
  | Except.error e => (Except.error e, s)
  | Except.ok _ =>
    match lookupSavedBlock s hash with
    | Except.error e => (Except.error e, s)
    | Except.ok pblock =>
      if pblock.GetHash = hash then
        (Except.ok (pblock, env.processNewBlock pblock), s)
      else
        (Except.error Err.assertFailure, s)

/-- The header `submitWork` parses from a payload: truncate the decoded
bytes to 80, undo the endianness swap, and decode the bare header. -/
def headerOfData (vchData : List Nat) : CPureBlockHeader :=
  deserializeHeader (SwapGetWorkEndianness (resizeTo 80 0 vchData))

/-- `AuxpowMiner::submitWork`: guard, reject payloads shorter than 80
bytes, truncate to 80 bytes and undo the endianness swap, parse the bare
header, look the template up by the parsed merkle root, copy it and
overwrite only the nonce, assert the copy's hash equals the parsed
header's hash, and hand the copy to `ProcessNewBlock`.  Returns the
submitted block and the verdict; the state is returned unchanged (const
method). -/
def submitWork (net : NetEnv) (env : ChainEnv) (s : AuxpowMiner)
    (vchData : List Nat) : Except Err (CBlock × Bool) × AuxpowMiner :=
  match auxMiningCheck net with
  | Except.error e => (Except.error e, s)
  | Except.ok _ =>
    if vchData.length < 80 then
      (Except.error (Err.invalidParameter "invalid size of data"), s)
    else
      let header := headerOfData vchData
      match lookupBlockByMerkleRoot s header.hashMerkleRoot with
      | Except.error e => (Except.error e, s)
      | Except.ok pblock =>
        let shared := { pblock with nNonce := header.nNonce }
        if shared.GetHash = header.GetHash then
          (Except.ok (shared, env.processNewBlock shared), s)
        else
          (Except.error Err.assertFailure, s)

/-- Test fixture: a healthy network (connman present, one peer, not
syncing, no on-demand mining). -/
def cNet : NetEnv :=
  { hasConnman := true, nodeCount := 1, mineBlocksOnDemand := false,
    inInitialBlockDownload := false }

/-- Test fixture: connman present but zero peers, no on-demand mining. -/
def cNetNoPeers : NetEnv :=
  { hasConnman := true, nodeCount := 0, mineBlocksOnDemand := false,
    inInitialBlockDownload := false }

/-- Test fixture: first chain tip. -/
def tipA : Tip :=
  { blockHash := 1, nHeight := 5 }

/-- Test fixture: a different chain tip. -/
def tipB : Tip :=
  { blockHash := 2, nHeight := 6 }

/-- Test fixture: the candidate the assembler returns against `tipA`,
with the regtest-style difficulty bits `0x1d00ffff`. -/
def blkA : CBlock :=
  { nVersion := 1, hashPrevBlock := 1, hashMerkleRoot := 0, nTime := 0,
    nBits := 0x1d00ffff, nNonce := 0, coinbaseValue := 5000000000,
    txData := [], auxpow := none }

/-- Test fixture: chain environment at `tipA` where the assembler
succeeds with `blkA`. -/
def cEnvA : ChainEnv :=
  { tip := tipA, mempoolCounter := 0, now := 0, newBlock := some blkA,
    auxpowChainId := 1829, processNewBlock := fun _ => true }

/-- Test fixture: chain environment after the tip moved to `tipB`, where
the assembler fails (models `CreateNewBlock` returning null). -/
def cEnvB : ChainEnv :=
  { tip := tipB, mempoolCounter := 0, now := 0, newBlock := none,
    auxpowChainId := 1829, processNewBlock := fun _ => true }

/-- The finalized first template built from `blkA`. -/
def finA : CBlock :=
  (IncrementExtraNonce blkA 0).1

/-- Miner state after a successful first build against `tipA`. -/
def sAfterA : AuxpowMiner :=
  (getCurrentBlock cEnvA AuxpowMiner.init).2

/-- Miner state after a subsequent tip change to `tipB` whose rebuild
failed: the cache was cleared but the tip snapshot still holds `tipA`. -/
def sAfterB : AuxpowMiner :=
  (getCurrentBlock cEnvB sAfterA).2

/-- Key list of an encoder result (empty on error). -/
def resultKeys (r : Except Err UniObject × AuxpowMiner) : List String :=
  match r.1 with
  | Except.ok obj => obj.map Prod.fst
  | Except.error _ => []

/-! ## Helper lemmas -/

theorem lookupSavedBlock_error {s : AuxpowMiner} {h : Nat} {e : Err}
    (he : lookupSavedBlock s h = Except.error e) :
    e = Err.invalidParameter "block hash unknown" := by
  unfold lookupSavedBlock at he
  cases hf : mapFind h s.blocks <;> simp [hf] at he
  exact he.symm

theorem lookupBlockByMerkleRoot_error {s : AuxpowMiner} {mr : Nat} {e : Err}
    (he : lookupBlockByMerkleRoot s mr = Except.error e) :
    e = Err.invalidParameter "Merkle root unknown" := by
  unfold lookupBlockByMerkleRoot at he
  cases hf : mapFind mr s.blocksByMerkleRoot <;> simp [hf] at he
  exact he.symm

/-! ## Claim theorems -/

/-- C9: every public operation (`createAuxBlock`, `createWork`,
`submitAuxBlock`, `submitWork`) runs the guard first: a missing
peer-to-peer subsystem raises the unavailable-network error, zero
connected peers without demand mining raises not-connected, and initial
block download without demand mining raises syncing — and in each case
the operation returns with the miner state (hence the cache and its
entry count) unchanged. -/
theorem guard_runs_first (net : NetEnv) (env : ChainEnv) (s : AuxpowMiner)
    (hash pow : Nat) (vch : List Nat) :
    (net.hasConnman = false →
      auxMiningCheck net = Except.error Err.p2pDisabled ∧
      createAuxBlock net env s = (Except.error Err.p2pDisabled, s) ∧
      createWork net env s = (Except.error Err.p2pDisabled, s) ∧
      submitAuxBlock net env s hash pow = (Except.error Err.p2pDisabled, s) ∧
      submitWork net env s vch = (Except.error Err.p2pDisabled, s)) ∧
    (net.hasConnman = true → net.nodeCount = 0 →
      net.mineBlocksOnDemand = false →
      auxMiningCheck net = Except.error Err.notConnected ∧
      createAuxBlock net env s = (Except.error Err.notConnected, s) ∧
      createWork net env s = (Except.error Err.notConnected, s) ∧
      submitAuxBlock net env s hash pow = (Except.error Err.notConnected, s) ∧
      submitWork net env s vch = (Except.error Err.notConnected, s)) ∧
    (net.hasConnman = true → net.nodeCount ≠ 0 →
      net.inInitialBlockDownload = true → net.mineBlocksOnDemand = false →
      auxMiningCheck net = Except.error Err.initialDownload ∧
      createAuxBlock net env s = (Except.error Err.initialDownload, s) ∧
      createWork net env s = (Except.error Err.initialDownload, s) ∧
      submitAuxBlock net env s hash pow = (Except.error Err.initialDownload, s) ∧
      submitWork net env s vch = (Except.error Err.initialDownload, s)) := by
  refine ⟨?_, ?_, ?_⟩
  · intro h1
    have hg : auxMiningCheck net = Except.error Err.p2pDisabled := by
      simp [auxMiningCheck, h1]
    exact ⟨hg, by simp [createAuxBlock, hg], by simp [createWork, hg],
      by simp [submitAuxBlock, hg], by simp [submitWork, hg]⟩
  · intro h1 h2 h3
    have hg : auxMiningCheck net = Except.error Err.notConnected := by
      simp [auxMiningCheck, h1, h2, h3]
    exact ⟨hg, by simp [createAuxBlock, hg], by simp [createWork, hg],
      by simp [submitAuxBlock, hg], by simp [submitWork, hg]⟩
  · intro h1 h2 h3 h4
    have hg : auxMiningCheck net = Except.error Err.initialDownload := by
      simp [auxMiningCheck, h1, h2, h3, h4]
    exact ⟨hg, by simp [createAuxBlock, hg], by simp [createWork, hg],
      by simp [submitAuxBlock, hg], by simp [submitWork, hg]⟩

/-- Witness for C9: with zero peers and demand mining off, concrete calls
raise not-connected and leave the concrete cache state unchanged. -/
theorem guard_runs_first_witness :
    createAuxBlock cNetNoPeers cEnvA AuxpowMiner.init =
      (Except.error Err.notConnected, AuxpowMiner.init) ∧
    submitWork cNetNoPeers cEnvA AuxpowMiner.init [] =
      (Except.error Err.notConnected, AuxpowMiner.init) := by
  have h := guard_runs_first cNetNoPeers cEnvA AuxpowMiner.init 0 0 []
  exact ⟨(h.2.1 rfl rfl rfl).2.1, (h.2.1 rfl rfl rfl).2.2.2.2⟩

/-- C7: the submission handlers leave the miner state (and so the cache's
own copy of every template) unmodified; on the success path
`submitAuxBlock` hands the validation pipeline exactly the looked-up
block, and `submitWork` hands it the looked-up block with only the nonce
field overwritten from the parsed header, while the cache still resolves
the merkle root to the unmodified original afterwards. -/
theorem submission_frame_effect (net : NetEnv) (env : ChainEnv)
    (s : AuxpowMiner) (hash pow : Nat) (vch : List Nat)
    (hnet : auxMiningCheck net = Except.ok ()) :
    ((submitAuxBlock net env s hash pow).2 = s) ∧
    ((submitWork net env s vch).2 = s) ∧
    (∀ b, lookupSavedBlock s hash = Except.ok b → b.GetHash = hash →
      (submitAuxBlock net env s hash pow).1 =
        Except.ok (b, env.processNewBlock b)) ∧
    (∀ b, ¬ vch.length < 80 →
      lookupBlockByMerkleRoot s (headerOfData vch).hashMerkleRoot =
        Except.ok b →
      ({ b with nNonce := (headerOfData vch).nNonce } : CBlock).GetHash =
        (headerOfData vch).GetHash →
      (submitWork net env s vch).1 =
        Except.ok ({ b with nNonce := (headerOfData vch).nNonce },
          env.processNewBlock { b with nNonce := (headerOfData vch).nNonce }) ∧
      lookupBlockByMerkleRoot (submitWork net env s vch).2
        (headerOfData vch).hashMerkleRoot = Except.ok b) := by
  have hstA : (submitAuxBlock net env s hash pow).2 = s := by
    unfold submitAuxBlock
    rw [hnet]
    cases hl : lookupSavedBlock s hash <;> simp [hl]
    split <;> rfl
  have hstW : (submitWork net env s vch).2 = s := by
    unfold submitWork
    rw [hnet]
    simp only []
    split
    · rfl
    · cases hl : lookupBlockByMerkleRoot s (headerOfData vch).hashMerkleRoot <;>
        simp [hl]
      split <;> rfl
  refine ⟨hstA, hstW, ?_, ?_⟩
  · intro b hl hh
    simp [submitAuxBlock, hnet, hl, hh]
  · intro b hlen hl hh
    refine ⟨?_, ?_⟩
    · simp [submitWork, hnet, hlen, hl, hh]
    · rw [hstW]; exact hl

/-- Witness for C7: a concrete submission against the cached first
template returns the pipeline verdict on the copy and leaves the state
unchanged. -/
theorem submission_frame_effect_witness :
    (submitAuxBlock cNet cEnvA sAfterA finA.GetHash 7).2 = sAfterA ∧
    (submitAuxBlock cNet cEnvA sAfterA finA.GetHash 7).1 =
      Except.ok (finA, cEnvA.processNewBlock finA) := by
  have h := submission_frame_effect cNet cEnvA sAfterA finA.GetHash 7 []
    (by decide)
  exact ⟨h.1, h.2.2.1 finA (by decide) rfl⟩

/-- C8: `submitWork` raises the invalid-parameter "invalid size of data"
error exactly when the decoded payload is shorter than 80 bytes; when the
payload is long enough but the parsed merkle root misses the cache's
merkle-root index, it raises the "Merkle root unknown" error and returns
without reaching the validation pipeline (no verdict is produced and the
state is unchanged). -/
theorem submitWork_error_conditions (net : NetEnv) (env : ChainEnv)
    (s : AuxpowMiner) (vch : List Nat)
    (hnet : auxMiningCheck net = Except.ok ()) :
    ((submitWork net env s vch).1 =
        Except.error (Err.invalidParameter "invalid size of data") ↔
      vch.length < 80) ∧
    (¬ vch.length < 80 →
      lookupBlockByMerkleRoot s (headerOfData vch).hashMerkleRoot =
        Except.error (Err.invalidParameter "Merkle root unknown") →
      submitWork net env s vch =
        (Except.error (Err.invalidParameter "Merkle root unknown"), s)) := by
  constructor
  · constructor
    · intro h
      by_contra hlen
      rw [submitWork, hnet] at h
      simp only [hlen, if_false] at h
      cases hl : lookupBlockByMerkleRoot s (headerOfData vch).hashMerkleRoot with
      | error e =>
        rw [hl] at h
        have := lookupBlockByMerkleRoot_error hl
        subst this
        simp at h
      | ok b =>
        rw [hl] at h
        by_cases hh : ({ b with nNonce := (headerOfData vch).nNonce } : CBlock).GetHash =
            (headerOfData vch).GetHash <;> simp [hh] at h
    · intro hlen
      simp [submitWork, hnet, hlen]
  · intro hlen hl
    simp [submitWork, hnet, hlen, hl]

/-- Witness for C8: the empty payload is rejected as too short, and an
80-byte zero payload (whose parsed merkle root is not cached) is rejected
as an unknown merkle root. -/
theorem submitWork_error_conditions_witness :
    (submitWork cNet cEnvA sAfterA []).1 =
      Except.error (Err.invalidParameter "invalid size of data") ∧
    submitWork cNet cEnvA sAfterA (List.replicate 80 0) =
      (Except.error (Err.invalidParameter "Merkle root unknown"), sAfterA) := by
  constructor
  · exact ((submitWork_error_conditions cNet cEnvA sAfterA [] (by decide)).1).mpr
      (by decide)
  · exact (submitWork_error_conditions cNet cEnvA sAfterA (List.replicate 80 0)
      (by decide)).2 (by decide) (by decide)

/-- C1: a template selector call builds a new template exactly when the
rebuild condition holds (tip changed, or mempool counter moved and more
than 60 seconds elapsed): with a candidate available, a required rebuild
bumps the extra nonce, installs the finalized candidate as current and
stamps all three snapshots; with no rebuild required the state is left
completely unchanged (the cache does not grow) and the cached template
itself (hence the same hash and merkle root) is returned together with
its decoded target; and when the assembler returns no candidate the
resource-exhaustion error is raised with the tip, mempool-counter and
build-time snapshots (and the extra nonce) unchanged. -/
theorem getCurrentBlock_rebuild_policy (env : ChainEnv) (s : AuxpowMiner) :
    (needsRebuild env s = false →
      (getCurrentBlock env s).2 = s ∧
      (∀ b, s.pblockCur = some b →
        (decodeCompact b.nBits).negative = false →
        (decodeCompact b.nBits).overflow = false →
        (decodeCompact b.nBits).target ≠ 0 →
        getCurrentBlock env s =
          (Except.ok (b, (decodeCompact b.nBits).target), s))) ∧
    (needsRebuild env s = true → ∀ nb, env.newBlock = some nb →
      (getCurrentBlock env s).2.extraNonce = s.extraNonce + 1 ∧
      (getCurrentBlock env s).2.pblockCur =
        some (IncrementExtraNonce nb s.extraNonce).1 ∧
      (getCurrentBlock env s).2.txUpdatedLast = env.mempoolCounter ∧
      (getCurrentBlock env s).2.pindexPrev = some env.tip ∧
      (getCurrentBlock env s).2.startTime = env.now) ∧
    (needsRebuild env s = true → env.newBlock = none →
      (getCurrentBlock env s).1 = Except.error Err.outOfMemory ∧
      (getCurrentBlock env s).2.txUpdatedLast = s.txUpdatedLast ∧
      (getCurrentBlock env s).2.pindexPrev = s.pindexPrev ∧
      (getCurrentBlock env s).2.startTime = s.startTime ∧
      (getCurrentBlock env s).2.extraNonce = s.extraNonce) := by
  refine ⟨?_, ?_, ?_⟩
  · intro h
    constructor
    · unfold getCurrentBlock selectStep
      rw [h]
      cases hc : s.pblockCur <;> simp [hc]
    · intro b hb hneg hov htar
      have hcond : ((decodeCompact b.nBits).negative ||
          (decodeCompact b.nBits).overflow ||
          ((decodeCompact b.nBits).target == 0)) = false := by
        simp [hneg, hov, htar]
      unfold getCurrentBlock selectStep
      rw [h]
      simp [hb, hcond]
  · intro h nb hnb
    unfold getCurrentBlock selectStep
    rw [h, hnb]
    by_cases htip : s.pindexPrev = some env.tip <;>
      simp [htip, IncrementExtraNonce, mapInsert]
  · intro h hnone
    unfold getCurrentBlock selectStep
    rw [h, hnone]
    by_cases htip : s.pindexPrev = some env.tip <;> simp [htip]

/-- Witness for C1: from the empty cache the first call rebuilds (tip
snapshot differs), installing the finalized template with extra
nonce 1. -/
theorem getCurrentBlock_rebuild_policy_witness :
    (getCurrentBlock cEnvA AuxpowMiner.init).2.extraNonce = 1 ∧
    (getCurrentBlock cEnvA AuxpowMiner.init).2.pblockCur = some finA := by
  have h := (getCurrentBlock_rebuild_policy cEnvA AuxpowMiner.init).2.1
    (by decide) blkA rfl
  exact ⟨h.1, h.2.1⟩

/-- C2: when the selector observes a tip different from the cached tip
(and the assembler succeeds), the by-hash index, the by-merkle-root index
and the current-template reference are rebuilt from empty: afterwards
they hold exactly the one new template, so every hash or merkle root
other than the new template's — in particular every key issued before the
tip change — misses in `lookupSavedBlock` / `lookupBlockByMerkleRoot`
with the unknown-template error, even if it resolved before the call. -/
theorem getCurrentBlock_tip_change_invalidation (env : ChainEnv)
    (s : AuxpowMiner) (nb : CBlock)
    (htip : s.pindexPrev ≠ some env.tip) (hnb : env.newBlock = some nb) :
    ((getCurrentBlock env s).2.blocks =
      [((IncrementExtraNonce nb s.extraNonce).1.GetHash,
        (IncrementExtraNonce nb s.extraNonce).1)] ∧
     (getCurrentBlock env s).2.blocksByMerkleRoot =
      [((IncrementExtraNonce nb s.extraNonce).1.hashMerkleRoot,
        (IncrementExtraNonce nb s.extraNonce).1)] ∧
     (getCurrentBlock env s).2.pblockCur =
      some (IncrementExtraNonce nb s.extraNonce).1) ∧
    (∀ h, h ≠ (IncrementExtraNonce nb s.extraNonce).1.GetHash →
      lookupSavedBlock (getCurrentBlock env s).2 h =
        Except.error (Err.invalidParameter "block hash unknown")) ∧
    (∀ mr, mr ≠ (IncrementExtraNonce nb s.extraNonce).1.hashMerkleRoot →
      lookupBlockByMerkleRoot (getCurrentBlock env s).2 mr =
        Except.error (Err.invalidParameter "Merkle root unknown")) := by
  have h : needsRebuild env s = true := by
    simp [needsRebuild, htip]
  have hmain : (getCurrentBlock env s).2.blocks =
      [((IncrementExtraNonce nb s.extraNonce).1.GetHash,
        (IncrementExtraNonce nb s.extraNonce).1)] ∧
      (getCurrentBlock env s).2.blocksByMerkleRoot =
      [((IncrementExtraNonce nb s.extraNonce).1.hashMerkleRoot,
        (IncrementExtraNonce nb s.extraNonce).1)] ∧
      (getCurrentBlock env s).2.pblockCur =
      some (IncrementExtraNonce nb s.extraNonce).1 := by
    unfold getCurrentBlock selectStep
    rw [h, hnb]
    simp [htip, IncrementExtraNonce, mapInsert]
  refine ⟨hmain, ?_, ?_⟩
  · intro hh hne
    have hb : (hh == (IncrementExtraNonce nb s.extraNonce).1.GetHash) = false :=
      beq_eq_false_iff_ne.mpr hne
    simp [lookupSavedBlock, mapFind, hmain.1, List.lookup, hb]
  · intro mr hne
    have hb : (mr == (IncrementExtraNonce nb s.extraNonce).1.hashMerkleRoot) =
        false := beq_eq_false_iff_ne.mpr hne
    simp [lookupBlockByMerkleRoot, mapFind, hmain.2.1, List.lookup, hb]

/-- Witness for C2: from the concrete first-build state, a tip change to
`tipB` with a successful rebuild makes the previously issued hash of
`finA` unresolvable. -/
theorem getCurrentBlock_tip_change_invalidation_witness :
    lookupSavedBlock
      (getCurrentBlock
        { cEnvB with newBlock := some blkA } sAfterA).2 finA.GetHash =
      Except.error (Err.invalidParameter "block hash unknown") := by
  exact (getCurrentBlock_tip_change_invalidation
      { cEnvB with newBlock := some blkA } sAfterA blkA
      (by decide) rfl).2.1 finA.GetHash (by decide)

/-- C10 (refuted): the non-null assertion on the current-template pointer
CAN fail.  Concrete trace: a successful build against `tipA` initialises
both snapshots; a tip change to `tipB` whose `CreateNewBlock` fails
clears the cache (the current pointer becomes null) but — because the
snapshots are only stamped after a successful build — leaves the cached
tip at `tipA`; when the chain then reorganises back to `tipA` with an
unchanged mempool counter, the rebuild branch is not taken while the
current pointer is still null, so the selector hits the failed
assertion, contradicting the source's own comment that `pblockCur` is
always initialised at that point. -/
theorem getCurrentBlock_assert_can_fail :
    (getCurrentBlock cEnvA AuxpowMiner.init).1 =
      Except.ok (finA, (decodeCompact finA.nBits).target) ∧
    (getCurrentBlock cEnvB sAfterA).1 = Except.error Err.outOfMemory ∧
    sAfterB.pindexPrev = some tipA ∧
    sAfterB.pblockCur = none ∧
    needsRebuild cEnvA sAfterB = false ∧
    (getCurrentBlock cEnvA sAfterB).1 = Except.error Err.assertFailure := by
  exact ⟨by decide, by decide, by decide, by decide, by decide, by decide⟩

/-- C3 (counterexample): on a concrete successful call the merge-mining
descriptor's key list is not the claimed
`hash, algo, chainid, previousblockhash, coinbasevalue, bits, height,
target` — the decoded-target field is keyed `_target`. -/
theorem createAuxBlock_field_name_cex :
    resultKeys (createAuxBlock cNet cEnvA AuxpowMiner.init) ≠
      ["hash", "algo", "chainid", "previousblockhash", "coinbasevalue",
       "bits", "height", "target"] ∧
    resultKeys (createAuxBlock cNet cEnvA AuxpowMiner.init) =
      ["hash", "algo", "chainid", "previousblockhash", "coinbasevalue",
       "bits", "height", "_target"] := by
  exact ⟨by decide, by decide⟩

/-- C3 (amended): on a successful call `createAuxBlock` returns exactly
the fields `hash, algo, chainid, previousblockhash, coinbasevalue, bits`
(fixed 8-hex-digit form), `height` equal to the parent height plus one,
and `_target` (the decoded target, hex-encoded); whenever the decoded
target of the selected block is negative, overflowed or zero the selector
raises the invalid-difficulty error instead and `createAuxBlock`
propagates it, so such a target never appears in an output; and every
target that does appear is the valid (non-negative, non-overflowed,
non-zero) decoding of the block's bits. -/
theorem createAuxBlock_fields (net : NetEnv) (env : ChainEnv)
    (s : AuxpowMiner) (hnet : auxMiningCheck net = Except.ok ()) :
    (∀ b t s' prev, getCurrentBlock env s = (Except.ok (b, t), s') →
      s'.pindexPrev = some prev →
      createAuxBlock net env s =
        (Except.ok
          [("hash", UV.s (natHex b.GetHash)),
           ("algo", UV.s "sha256d"),
           ("chainid", UV.i env.auxpowChainId),
           ("previousblockhash", UV.s (natHex b.hashPrevBlock)),
           ("coinbasevalue", UV.i b.coinbaseValue),
           ("bits", UV.s (toHex8 b.nBits)),
           ("height", UV.i (prev.nHeight + 1)),
           ("_target", UV.s (HexStr (serU256 t)))], s')) ∧
    (∀ b t s', getCurrentBlock env s = (Except.ok (b, t), s') →
      (decodeCompact b.nBits).negative = false ∧
      (decodeCompact b.nBits).overflow = false ∧
      (decodeCompact b.nBits).target ≠ 0 ∧
      t = (decodeCompact b.nBits).target) ∧
    (∀ e s', getCurrentBlock env s = (Except.error e, s') →
      createAuxBlock net env s = (Except.error e, s')) ∧
    (∀ n, (toHex8 n).length = 8) := by
  refine ⟨?_, ?_, ?_, ?_⟩
  · intro b t s' prev hcur hprev
    simp [createAuxBlock, hnet, hcur, hprev]
  · intro b t s' hcur
    unfold getCurrentBlock at hcur
    rcases hs : selectStep env s with ⟨r, s1⟩
    rw [hs] at hcur
    cases r with
    | error e => simp at hcur
    | ok c =>
      simp only [] at hcur
      split at hcur
      · simp at hcur
      · rename_i hcond
        simp only [Prod.mk.injEq, Except.ok.injEq] at hcur
        obtain ⟨⟨hb, ht⟩, -⟩ := hcur
        subst hb
        simp only [Bool.or_eq_true, not_or, Bool.not_eq_true,
          beq_eq_false_iff_ne] at hcond
        exact ⟨hcond.1.1, hcond.1.2, hcond.2, ht.symm⟩
  · intro e s' hcur
    simp [createAuxBlock, hnet, hcur]
  · intro n
    simp [toHex8]

/-- Witness for C3 (amended): the concrete first call returns the
descriptor with the `_target` key and parent height 5 plus one. -/
theorem createAuxBlock_fields_witness :
    createAuxBlock cNet cEnvA AuxpowMiner.init =
      (Except.ok
        [("hash", UV.s (natHex finA.GetHash)),
         ("algo", UV.s "sha256d"),
         ("chainid", UV.i 1829),
         ("previousblockhash", UV.s (natHex finA.hashPrevBlock)),
         ("coinbasevalue", UV.i 5000000000),
         ("bits", UV.s (toHex8 finA.nBits)),
         ("height", UV.i (5 + 1)),
         ("_target", UV.s (HexStr (serU256 (decodeCompact finA.nBits).target)))],
       sAfterA) := by
  exact (createAuxBlock_fields cNet cEnvA AuxpowMiner.init (by decide)).1
    finA (decodeCompact finA.nBits).target sAfterA tipA (by decide) (by decide)

theorem mapFind_mem : ∀ {m : List (Nat × CBlock)} {k : Nat} {b : CBlock},
    mapFind k m = some b → (k, b) ∈ m := by
  intro m
  induction m with
  | nil => intro k b h; simp [mapFind] at h
  | cons e rest ih =>
    intro k b h
    rcases e with ⟨kk, v⟩
    by_cases hk : k = kk
    · subst hk
      simp [mapFind, List.lookup] at h
      subst h
      exact List.mem_cons_self _ _
    · have hb : (k == kk) = false := beq_eq_false_iff_ne.mpr hk
      simp [mapFind, List.lookup, hb] at h
      exact List.mem_cons_of_mem _ (ih h)

/-- C4 (counterexample): on a concrete call the block handed to the
validation pipeline does not carry the parsed proof — the `SetAuxpow`
attachment is disabled in the source, so the submitted block's auxpow
slot stays empty instead of holding the parsed proof `7`. -/
theorem submitAuxBlock_no_attach_cex :
    (submitAuxBlock cNet cEnvA sAfterA finA.GetHash 7).1.map
      (fun r => r.1.auxpow) ≠ Except.ok (some 7) ∧
    (submitAuxBlock cNet cEnvA sAfterA finA.GetHash 7).1 =
      Except.ok (finA, true) ∧
    finA.auxpow = none := by
  exact ⟨by decide, by decide, by decide⟩

/-- C4 (amended): `submitAuxBlock` looks the template up by the requested
hash and works on a copy; the parsed proof is left unattached (the
attachment call is disabled in the source pending a block-format
change), so the block handed to the validation pipeline is exactly the
unmodified copy; the assertion that the copy's hash equals the requested
hash passes whenever the by-hash index is hash-consistent (every key is
its block's hash), and the pipeline's verdict on that block is
returned with the state untouched. -/
theorem submitAuxBlock_behavior (net : NetEnv) (env : ChainEnv)
    (s : AuxpowMiner) (hash pow : Nat)
    (hnet : auxMiningCheck net = Except.ok ())
    (hwf : ∀ e ∈ s.blocks, e.1 = e.2.GetHash) :
    ∀ b, lookupSavedBlock s hash = Except.ok b →
      b.GetHash = hash ∧
      submitAuxBlock net env s hash pow =
        (Except.ok (b, env.processNewBlock b), s) := by
  intro b hlook
  have hmem : (hash, b) ∈ s.blocks := by
    unfold lookupSavedBlock at hlook
    cases hf : mapFind hash s.blocks with
    | none => rw [hf] at hlook; simp at hlook
    | some c =>
      rw [hf] at hlook
      simp at hlook
      subst hlook
      exact mapFind_mem hf
  have hh : b.GetHash = hash := (hwf (hash, b) hmem).symm
  exact ⟨hh, by simp [submitAuxBlock, hnet, hlook, hh]⟩

/-- Witness for C4 (amended): the concrete submission of the cached first
template returns the pipeline verdict on the untouched copy. -/
theorem submitAuxBlock_behavior_witness :
    finA.GetHash = finA.GetHash ∧
    submitAuxBlock cNet cEnvA sAfterA finA.GetHash 7 =
      (Except.ok (finA, cEnvA.processNewBlock finA), sAfterA) :=
  submitAuxBlock_behavior cNet cEnvA sAfterA finA.GetHash 7 (by decide)
    (by decide) finA (by decide)

theorem serLE_length (k : Nat) : ∀ n : Nat, (serLE k n).length = k := by
  induction k with
  | zero => intro n; rfl
  | succ k ih => intro n; simp [serLE, ih]

theorem serializeHeader_length (h : CPureBlockHeader) :
    (serializeHeader h).length = 80 := by
  simp [serializeHeader, serU32, serU256, serLE_length]

theorem deserLE_serLE (k : Nat) : ∀ n : Nat,
    deserLE (serLE k n) = n % 2 ^ (8 * k) := by
  induction k with
  | zero => intro n; simp [serLE, deserLE, Nat.mod_one]
  | succ k ih =>
    intro n
    have hc : deserLE (n % 256 :: serLE k (n / 256)) =
        n % 256 + 256 * deserLE (serLE k (n / 256)) := rfl
    rw [serLE, hc, ih]
    have hp : (2 : Nat) ^ (8 * (k + 1)) = 256 * 2 ^ (8 * k) := by
      rw [Nat.mul_succ, Nat.pow_add]
      ring
    rw [hp, Nat.mod_mul]

theorem deserLE_serU32 {n : Nat} (h : n < 2 ^ 32) :
    deserLE (serU32 n) = n := by
  have := deserLE_serLE 4 n
  rw [serU32, this]
  exact Nat.mod_eq_of_lt (by norm_num at h ⊢; omega)

theorem deserLE_serU256 {n : Nat} (h : n < 2 ^ 256) :
    deserLE (serU256 n) = n := by
  have := deserLE_serLE 32 n
  rw [serU256, this]
  exact Nat.mod_eq_of_lt (by norm_num at h ⊢; omega)

theorem deserializeHeader_serializeHeader (h : CPureBlockHeader)
    (hv : validHeader h) : deserializeHeader (serializeHeader h) = h := by
  obtain ⟨h1, h2, h3, h4, h5, h6⟩ := hv
  have l4 : ∀ n : Nat, (serU32 n).length = 4 := fun n => by
    simp [serU32, serLE_length]
  have l32 : ∀ n : Nat, (serU256 n).length = 32 := fun n => by
    simp [serU256, serLE_length]
  have hsplit : serializeHeader h =
      serU32 h.nVersion ++ (serU256 h.hashPrevBlock ++
        (serU256 h.hashMerkleRoot ++ (serU32 h.nTime ++
          (serU32 h.nBits ++ serU32 h.nNonce)))) := by
    simp [serializeHeader, List.append_assoc]
  have t0 : (serializeHeader h).take 4 = serU32 h.nVersion := by
    rw [hsplit]; exact List.take_left' (l4 _)
  have d4 : (serializeHeader h).drop 4 =
      serU256 h.hashPrevBlock ++ (serU256 h.hashMerkleRoot ++
        (serU32 h.nTime ++ (serU32 h.nBits ++ serU32 h.nNonce))) := by
    rw [hsplit]; exact List.drop_left' (l4 _)
  have d36 : (serializeHeader h).drop 36 =
      serU256 h.hashMerkleRoot ++ (serU32 h.nTime ++
        (serU32 h.nBits ++ serU32 h.nNonce)) := by
    rw [show (36 : Nat) = 4 + 32 from rfl, ← List.drop_drop, d4]
    exact List.drop_left' (l32 _)
  have d68 : (serializeHeader h).drop 68 =
      serU32 h.nTime ++ (serU32 h.nBits ++ serU32 h.nNonce) := by
    rw [show (68 : Nat) = 36 + 32 from rfl, ← List.drop_drop, d36]
    exact List.drop_left' (l32 _)
  have d72 : (serializeHeader h).drop 72 =
      serU32 h.nBits ++ serU32 h.nNonce := by
    rw [show (72 : Nat) = 68 + 4 from rfl, ← List.drop_drop, d68]
    exact List.drop_left' (l4 _)
  have d76 : (serializeHeader h).drop 76 = serU32 h.nNonce := by
    rw [show (76 : Nat) = 72 + 4 from rfl, ← List.drop_drop, d72]
    exact List.drop_left' (l4 _)
  unfold deserializeHeader
  rw [t0, d4, d36, d68, d72, d76,
    List.take_left' (l32 _), List.take_left' (l32 _),
    List.take_left' (l4 _), List.take_left' (l4 _),
    List.take_of_length_le (le_of_eq (l4 _)),
    deserLE_serU32 h1, deserLE_serU256 h2, deserLE_serU256 h3,
    deserLE_serU32 h4, deserLE_serU32 h5, deserLE_serU32 h6]

theorem swapGWE_swapGWE : ∀ l : List Nat,
    SwapGetWorkEndianness (SwapGetWorkEndianness l) = l
  | [] => rfl
  | [_] => rfl
  | [_, _] => rfl
  | [_, _, _] => rfl
  | a :: b :: c :: d :: rest => by
    simp [SwapGetWorkEndianness, swapGWE_swapGWE rest]

theorem swapGWE_length : ∀ l : List Nat,
    (SwapGetWorkEndianness l).length = l.length
  | [] => rfl
  | [_] => rfl
  | [_, _] => rfl
  | [_, _, _] => rfl
  | a :: b :: c :: d :: rest => by
    simp [SwapGetWorkEndianness, swapGWE_length rest]

theorem swapGWE_append : ∀ (l1 l2 : List Nat), l1.length % 4 = 0 →
    SwapGetWorkEndianness (l1 ++ l2) =
      SwapGetWorkEndianness l1 ++ SwapGetWorkEndianness l2
  | [], l2, _ => by simp [SwapGetWorkEndianness]
  | [_], _, h => by simp at h
  | [_, _], _, h => by simp at h
  | [_, _, _], _, h => by simp at h
  | a :: b :: c :: d :: rest, l2, h => by
    have h4 : rest.length % 4 = 0 := by
      simp [List.length_cons] at h
      omega
    simp [SwapGetWorkEndianness, swapGWE_append rest l2 h4]

theorem createWorkPreSwap_eq (b : CBlock) :
    createWorkPreSwap b =
      serializeHeader b.header ++
        (128 :: (List.replicate 43 0 ++ [0, 0, 2, 128])) := by
  have hlen : (serializeHeader b.header).length = 80 :=
    serializeHeader_length _
  have hres : resizeTo 128 0 (serializeHeader b.header) =
      serializeHeader b.header ++ List.replicate 48 0 := by
    unfold resizeTo
    rw [List.take_of_length_le (by omega), hlen]
  unfold createWorkPreSwap
  rw [hlen, hres]
  unfold FormatHashBlocks
  norm_num
  rw [List.take_left' hlen, List.drop_eq_nil_of_le (by simp [hlen])]

/-- C5: in `createWork`, the serialized header always has length L = 80,
and the data blob before the byte swap is exactly 128 bytes: the header,
then the byte `0x80` at offset L, then zeros up to the last four bytes,
then the big-endian 32-bit encoding of the bit-length `L * 8` (most
significant byte at the fourth position from the end); concretely the
tail is `[0, 0, 2, 128]` for `80 * 8 = 640`. -/
theorem createWork_padding (b : CBlock) :
    (serializeHeader b.header).length = 80 ∧
    createWorkPreSwap b =
      serializeHeader b.header ++
        (0x80 :: (List.replicate 43 0 ++
          [80 * 8 / 2 ^ 24 % 256, 80 * 8 / 2 ^ 16 % 256,
           80 * 8 / 2 ^ 8 % 256, 80 * 8 % 256])) ∧
    (createWorkPreSwap b).length = 128 ∧
    (createWorkPreSwap b).getD 80 0 = 0x80 ∧
    (createWorkPreSwap b).drop 81 =
      List.replicate 43 0 ++ [0, 0, 2, 128] := by
  have hlen := serializeHeader_length b.header
  have heq := createWorkPreSwap_eq b
  refine ⟨hlen, ?_, ?_, ?_, ?_⟩
  · rw [heq]
    norm_num
  · rw [heq]
    simp [hlen]
  · rw [heq, List.getD_append_right _ _ _ _ (le_of_eq hlen), hlen]
    rfl
  · rw [heq, show (81 : Nat) = 80 + 1 from rfl, ← List.drop_drop,
      List.drop_left' hlen]
    rfl

/-- C6: the 4-byte-group swap is an involution on every byte vector whose
length is a multiple of 4; consequently `submitWork`'s swap of the
truncated 80-byte payload undoes `createWork`'s swap, and decoding the
unswapped bytes as a bare header recovers exactly the header
`createWork` serialized — in particular its previous-block reference and
merkle root. -/
theorem swapGWE_roundtrip :
    (∀ l : List Nat, l.length % 4 = 0 →
      SwapGetWorkEndianness (SwapGetWorkEndianness l) = l) ∧
    (∀ b : CBlock, validHeader b.header →
      SwapGetWorkEndianness (resizeTo 80 0 (createWorkData b)) =
        serializeHeader b.header ∧
      headerOfData (createWorkData b) = b.header ∧
      (headerOfData (createWorkData b)).hashPrevBlock = b.hashPrevBlock ∧
      (headerOfData (createWorkData b)).hashMerkleRoot = b.hashMerkleRoot) := by
  constructor
  · intro l _
    exact swapGWE_swapGWE l
  · intro b hv
    have hlen := serializeHeader_length b.header
    have heq := createWorkPreSwap_eq b
    have hdataLen : (createWorkData b).length = 128 := by
      unfold createWorkData
      rw [swapGWE_length, heq]
      simp [hlen]
    have hswap : SwapGetWorkEndianness (resizeTo 80 0 (createWorkData b)) =
        serializeHeader b.header := by
      unfold resizeTo
      rw [hdataLen]
      norm_num
      unfold createWorkData
      rw [heq, swapGWE_append _ _ (by simp [hlen]),
        List.take_left' (by rw [swapGWE_length, hlen])]
      exact swapGWE_swapGWE _
    have hhdr : headerOfData (createWorkData b) = b.header := by
      unfold headerOfData
      rw [hswap]
      exact deserializeHeader_serializeHeader b.header hv
    exact ⟨hswap, hhdr, by rw [hhdr]; rfl, by rw [hhdr]; rfl⟩

/-- Witness for C6: a concrete double swap is the identity, and the
concrete first template's legacy blob decodes back to its own
previous-block reference and merkle root. -/
theorem swapGWE_roundtrip_witness :
    SwapGetWorkEndianness (SwapGetWorkEndianness [1, 2, 3, 4, 5, 6, 7, 8]) =
      [1, 2, 3, 4, 5, 6, 7, 8] ∧
    (headerOfData (createWorkData finA)).hashPrevBlock = finA.hashPrevBlock ∧
    (headerOfData (createWorkData finA)).hashMerkleRoot =
      finA.hashMerkleRoot := by
  refine ⟨swapGWE_roundtrip.1 [1, 2, 3, 4, 5, 6, 7, 8] (by decide), ?_, ?_⟩
  · exact (swapGWE_roundtrip.2 finA (by decide)).2.2.1
  · exact (swapGWE_roundtrip.2 finA (by decide)).2.2.2
